import Mathlib

/-!
Shallow embedding of the pet-registry blockchain (`pet_blockchain.py`).

Modelling conventions:
- The SHA-256 hex digest and the canonical JSON serializers (`json.dumps`
  with `sort_keys=True`) are external capabilities; they are threaded as
  explicit function parameters (`sha : String → String`,
  `canonTxs : List Tx → String`, `canonBlock : Block → String`).
- `time()` is nondeterministic; each operation takes the current timestamp
  as an explicit `Nat` parameter (the several `time()` calls inside one
  Python method are modelled with that one timestamp, since no claim
  depends on their sub-second differences).
- Python dicts keyed by `pet_id` become association lists preserving
  insertion order; dict field mutation becomes functional record update.
- Python `False`-or-value returns become `Option`/`Bool` results.
-/

/-- Constant `MINING_SENDER` from the source. -/
def MINING_SENDER : String := "BLOCKCHAIN_REWARD"

/-- Constant `MINING_REWARD` from the source (amount of the reward transfer). -/
def MINING_REWARD : Nat := 1

/-- Constant `MINING_DIFFICULTY` from the source. -/
def MINING_DIFFICULTY : Nat := 2

/-- The string of `n` ASCII zero characters, Python `"0" * n`. -/
def zeroRun (n : Nat) : String := String.mk (List.replicate n '0')

/-- Python string slicing `s[:n]`: the first `n` characters. -/
def strTake (s : String) (n : Nat) : String := String.mk (s.data.take n)

/-- Model of `hashed_key(raw_key)`: `"UNKNOWN_KEY"` for a missing/empty key, else the
first 24 hex chars of the SHA-256 digest.  `none` models Python `None`. -/
def hashed_key (sha : String → String) (raw_key : Option String) : String :=
  match raw_key with
  | none => "UNKNOWN_KEY"
  | some k => if k = "" then "UNKNOWN_KEY" else strTake (sha k) 24

/-- A registry-side vet record (`PetRegistry.add_vet_record`'s `rec` dict). -/
structure VetRec where
  record_id : String
  record_type : Option String
  vet_name : Option String
  vet_clinic : Option String
  vet_phone : Option String
  procedure : Option String
  notes : Option String
  date : String
  next_due_date : Option String
  timestamp : Nat
deriving DecidableEq, Repr

/-- Input dictionary for a vet record (fields read via `record.get(...)`). -/
structure VetRecInput where
  record_type : Option String
  vet_name : Option String
  vet_clinic : Option String
  vet_phone : Option String
  procedure : Option String
  notes : Option String
  date : Option String
  next_due_date : Option String
deriving DecidableEq, Repr

/-- A pet profile as built by `PetRegistry.create_pet_profile`.  The
`lost_*` / `found_*` fields are added dynamically by Python on the first
`mark_pet_lost` / `mark_pet_found`; they are modelled as `Option`s that
start out `none`. -/
structure PetProfile where
  pet_id : String
  name : Option String
  breed : Option String
  species : String
  birth_date : Option String
  color : Option String
  weight : Option String
  microchip_id : Option String
  photo : Option String
  owner_public_key_hash : String
  owner_public_key : Option String
  owner_name : Option String
  owner_phone : Option String
  owner_email : Option String
  registered_at : Nat
  vet_records : List VetRec
  view_count : Nat
  status : String
  lost_location : Option String := none
  lost_description : Option String := none
  lost_since : Option Nat := none
  found_by : Option String := none
  found_at : Option Nat := none
deriving DecidableEq, Repr

/-- Input dictionary for `create_pet_profile` / `register_pet`
(fields read via `pet_data.get(...)`). -/
structure PetData where
  name : Option String
  breed : Option String
  species : Option String
  birth_date : Option String
  color : Option String
  weight : Option String
  microchip_id : Option String
  photo : Option String
  owner_public_key : Option String
  owner_name : Option String
  owner_phone : Option String
  owner_email : Option String
deriving DecidableEq, Repr

/-- The `pets` dict of `PetRegistry`: an insertion-ordered association list. -/
abbrev Pets := List (String × PetProfile)

/-- Python `self.pets.get(pet_id)` / `pet_id in self.pets` lookup. -/
def lookupPet (pets : Pets) (pet_id : String) : Option PetProfile :=
  match pets with
  | [] => none
  | (k, p) :: rest => if k = pet_id then some p else lookupPet rest pet_id

/-- Python `self.pets[pet_id] = profile`: replace an existing binding in
place, otherwise append (dict insertion order). -/
def setPet (pets : Pets) (pet_id : String) (p : PetProfile) : Pets :=
  match pets with
  | [] => [(pet_id, p)]
  | (k, q) :: rest =>
      if k = pet_id then (k, p) :: rest else (k, q) :: setPet rest pet_id p

/-- In-place mutation of the profile stored under `pet_id`
(Python `self.pets[pet_id][field] = v`). -/
def updatePet (pets : Pets) (pet_id : String) (f : PetProfile → PetProfile) : Pets :=
  match pets with
  | [] => []
  | (k, p) :: rest =>
      (if k = pet_id then (k, f p) else (k, p)) :: updatePet rest pet_id f

/-- Model of `PetRegistry.generate_pet_id`: first 16 hex chars of
`sha256(f"{microchip_id}_{owner_public_key}_{time()}")`. -/
def generate_pet_id (sha : String → String) (microchip_id owner_public_key : String)
    (now : Nat) : String :=
  strTake (sha (microchip_id ++ "_" ++ owner_public_key ++ "_" ++ toString now)) 16

/-- Model of `PetRegistry.create_pet_profile`: builds the profile (species defaults
to `"dog"`, `view_count` 0, status `"active"`) and stores it. -/
def create_pet_profile (sha : String → String) (pets : Pets) (pet_id : String)
    (pet_data : PetData) (now : Nat) : PetProfile × Pets :=
  let profile : PetProfile :=
    { pet_id := pet_id
      name := pet_data.name
      breed := pet_data.breed
      species := pet_data.species.getD "dog"
      birth_date := pet_data.birth_date
      color := pet_data.color
      weight := pet_data.weight
      microchip_id := pet_data.microchip_id
      photo := pet_data.photo
      owner_public_key_hash := hashed_key sha pet_data.owner_public_key
      owner_public_key := pet_data.owner_public_key
      owner_name := pet_data.owner_name
      owner_phone := pet_data.owner_phone
      owner_email := pet_data.owner_email
      registered_at := now
      vet_records := []
      view_count := 0
      status := "active" }
  (profile, setPet pets pet_id profile)

/-- Model of `PetRegistry.add_vet_record`: `none` for an unknown pet, else build the
record (id = first 12 hex chars of `sha256(f"{pet_id}_{time()}")`), append
it to the pet's `vet_records`, return it. -/
def add_vet_record (sha : String → String) (pets : Pets) (pet_id : String)
    (record : VetRecInput) (now : Nat) : Option VetRec × Pets :=
  match lookupPet pets pet_id with
  | none => (none, pets)
  | some _ =>
      let rec0 : VetRec :=
        { record_id := strTake (sha (pet_id ++ "_" ++ toString now)) 12
          record_type := record.record_type
          vet_name := record.vet_name
          vet_clinic := record.vet_clinic
          vet_phone := record.vet_phone
          procedure := record.procedure
          notes := record.notes
          date := record.date.getD (toString now)
          next_due_date := record.next_due_date
          timestamp := now }
      (some rec0, updatePet pets pet_id (fun p => { p with vet_records := p.vet_records ++ [rec0] }))

/-- Model of `PetRegistry.mark_pet_lost`: `false` for an unknown pet, else set status
`"lost"` and the lost-metadata fields. -/
def mark_pet_lost (pets : Pets) (pet_id : String) (location description : Option String)
    (now : Nat) : Bool × Pets :=
  match lookupPet pets pet_id with
  | none => (false, pets)
  | some _ =>
      (true, updatePet pets pet_id (fun p =>
        { p with status := "lost", lost_location := location,
                 lost_description := description, lost_since := some now }))

/-- Model of `PetRegistry.mark_pet_found`: `false` for an unknown pet, else set status
`"active"`, `found_by`, `found_at`. -/
def mark_pet_found (pets : Pets) (pet_id : String) (found_by : Option String)
    (now : Nat) : Bool × Pets :=
  match lookupPet pets pet_id with
  | none => (false, pets)
  | some _ =>
      (true, updatePet pets pet_id (fun p =>
        { p with status := "active", found_by := found_by, found_at := some now }))

/-- Model of `PetRegistry.increment_view_count`: `0` for an unknown pet, else bump
`view_count` and return the new value. -/
def increment_view_count (pets : Pets) (pet_id : String) : Nat × Pets :=
  match lookupPet pets pet_id with
  | none => (0, pets)
  | some p =>
      (p.view_count + 1, updatePet pets pet_id (fun q => { q with view_count := q.view_count + 1 }))

/-- A ledger transaction.  One constructor per `OrderedDict` shape built in
the source (`type` tag field becomes the constructor).  The plain transfer
built by `submit_transaction` has no `type`/`pet_id` keys. -/
inductive Tx where
  | petRegistration (pet_id : String) (pet_name species microchip_id : Option String)
      (owner_public_key_hash : String) (timestamp : Nat)
  | vetRecord (pet_id record_id : String) (record_type vet_name : Option String)
      (owner_public_key_hash : String) (timestamp : Nat)
  | profileView (pet_id viewer_public_key_hash : String) (view_count : Nat) (timestamp : Nat)
  | petLost (pet_id : String) (location description : String)
      (owner_public_key_hash : String) (timestamp : Nat)
  | petFound (pet_id finder_public_key_hash finder_contact : String) (timestamp : Nat)
  | valueTransfer (sender_public_key_hash recipient_public_key_hash : String)
      (amount : Nat) (timestamp : Nat)
deriving DecidableEq, Repr

/-- Python `tx.get("pet_id")`: the `pet_id` field when the dict has one,
`None` otherwise (value transfers have no such key). -/
def txPetId : Tx → Option String
  | .petRegistration pid _ _ _ _ _ => some pid
  | .vetRecord pid _ _ _ _ _ => some pid
  | .profileView pid _ _ _ => some pid
  | .petLost pid _ _ _ _ => some pid
  | .petFound pid _ _ _ => some pid
  | .valueTransfer _ _ _ _ => none

/-- A block of the chain (`create_block`'s dict). -/
structure Block where
  block_number : Nat
  timestamp : Nat
  transactions : List Tx
  nonce : Nat
  previous_hash : String
deriving DecidableEq, Repr

/-- The mutable state of a `Blockchain` instance (`unconfirmed_transactions`,
`chain`, and the embedded `PetRegistry.pets`; the node set and node id play
no role in the claims). -/
structure BState where
  unconfirmed_transactions : List Tx
  chain : List Block
  pets : Pets
deriving DecidableEq, Repr

/-- Model of `Blockchain.hash(block)`: SHA-256 hex digest of the canonically
serialized block (`json.dumps(block, sort_keys=True)`). -/
def Blockchain.hash (sha : String → String) (canonBlock : Block → String) (b : Block) : String :=
  sha (canonBlock b)

/-- Model of `Blockchain.create_block(nonce, previous_hash)`: snapshot the pool into
a new block numbered `len(chain) + 1`, clear the pool, append the block,
return it. -/
def create_block (s : BState) (now : Nat) (nonce : Nat) (previous_hash : String) :
    Block × BState :=
  let block : Block :=
    { block_number := s.chain.length + 1
      timestamp := now
      transactions := s.unconfirmed_transactions
      nonce := nonce
      previous_hash := previous_hash }
  (block, { s with unconfirmed_transactions := [], chain := s.chain ++ [block] })

/-- The genesis construction in `Blockchain.__init__`:
`create_block(0, "00")` on empty pool/chain/registry. -/
def initState (now : Nat) : BState :=
  (create_block { unconfirmed_transactions := [], chain := [], pets := [] } now 0 "00").2

/-- One proof-of-work guess hash:
`sha256(json.dumps(pool, sort_keys=True) + str(last_hash) + str(nonce))`. -/
def powGuessHash (sha : String → String) (canonTxs : List Tx → String)
    (pool : List Tx) (last_hash : String) (nonce : Nat) : String :=
  sha (canonTxs pool ++ last_hash ++ toString nonce)

/-- The acceptance test of `proof_of_work`:
`guess_hash[:MINING_DIFFICULTY] == "0" * MINING_DIFFICULTY`. -/
def powOk (sha : String → String) (canonTxs : List Tx → String)
    (pool : List Tx) (last_hash : String) (nonce : Nat) : Bool :=
  strTake (powGuessHash sha canonTxs pool last_hash nonce) MINING_DIFFICULTY
    = zeroRun MINING_DIFFICULTY

/-- Model of `Blockchain.proof_of_work`: ascending search from nonce 0 for the first
guess hash passing `powOk`, against the current pool and the hash of the
last block.  The Python `while True` loop terminates exactly when some
nonce works; that termination condition is the hypothesis `hex0`. -/
def proof_of_work (sha : String → String) (canonTxs : List Tx → String)
    (canonBlock : Block → String) (s : BState) (hne : s.chain ≠ [])
    (hex0 : ∃ n, powOk sha canonTxs s.unconfirmed_transactions
      (Blockchain.hash sha canonBlock (s.chain.getLast hne)) n = true) : Nat :=
  Nat.find hex0

/-- Model of `Blockchain.verify_transaction_signature`: delegates to the external
RSA/PKCS1 verifier over the `(sender, recipient, amount)` dict; the bare
`except` converts a raised exception (modelled as `none`) to `False`. -/
def verify_transaction_signature
    (verifier : String → String → String → Nat → Option Bool)
    (sender_public_key signature recipient_public_key : String) (amount : Nat) : Bool :=
  match verifier sender_public_key signature recipient_public_key amount with
  | some b => b
  | none => false

/-- Model of `Blockchain.submit_transaction`: build the hashed-identifier transfer;
the mining-reward sender bypasses verification; otherwise append only when
the signature verifies, returning `len(chain) + 1` on success and `False`
(here `none`) on rejection. -/
def submit_transaction (sha : String → String)
    (verifier : String → String → String → Nat → Option Bool) (s : BState)
    (sender_public_key recipient_public_key signature : String) (amount : Nat)
    (now : Nat) : Option Nat × BState :=
  let tx : Tx := .valueTransfer (hashed_key sha (some sender_public_key))
    (hashed_key sha (some recipient_public_key)) amount now
  if sender_public_key = MINING_SENDER then
    (some (s.chain.length + 1),
      { s with unconfirmed_transactions := s.unconfirmed_transactions ++ [tx] })
  else
    if verify_transaction_signature verifier sender_public_key signature
        recipient_public_key amount then
      (some (s.chain.length + 1),
        { s with unconfirmed_transactions := s.unconfirmed_transactions ++ [tx] })
    else
      (none, s)

/-- Model of `Blockchain.register_pet`: derive the pet id, create the profile (with
the owner key merged into the data), emit a `PET_REGISTRATION` event. -/
def register_pet (sha : String → String) (s : BState) (pet_data : PetData)
    (owner_public_key : String) (now : Nat) : String × BState :=
  let pet_id := generate_pet_id sha (pet_data.microchip_id.getD "NO_CHIP") owner_public_key now
  let pets1 := (create_pet_profile sha s.pets pet_id
    { pet_data with owner_public_key := some owner_public_key } now).2
  let tx : Tx := .petRegistration pet_id pet_data.name pet_data.species
    pet_data.microchip_id (hashed_key sha (some owner_public_key)) now
  (pet_id,
    { s with
        pets := pets1
        unconfirmed_transactions := s.unconfirmed_transactions ++ [tx] })

/-- Model of `Blockchain.add_vet_record_to_pet`: fail closed (`False`, modelled
`none`) when the pet is unknown or the raw owner key differs; otherwise
append the registry record and emit a `VET_RECORD` event, returning the new
`record_id`. -/
def add_vet_record_to_pet (sha : String → String) (s : BState) (pet_id : String)
    (record : VetRecInput) (owner_public_key : String) (now : Nat) :
    Option String × BState :=
  match lookupPet s.pets pet_id with
  | none => (none, s)
  | some pet =>
      if pet.owner_public_key ≠ some owner_public_key then (none, s)
      else
        match add_vet_record sha s.pets pet_id record now with
        | (none, _) => (none, s)  -- unreachable: the pet was just found
        | (some rc, pets1) =>
            let tx : Tx := .vetRecord pet_id rc.record_id rc.record_type rc.vet_name
              (hashed_key sha (some owner_public_key)) now
            (some rc.record_id,
              { s with
                  pets := pets1
                  unconfirmed_transactions := s.unconfirmed_transactions ++ [tx] })

/-- Model of `Blockchain.view_pet_profile`: `False` when the pet id is unknown;
otherwise increment the view counter and emit a `PROFILE_VIEW` event
carrying the post-increment count. -/
def view_pet_profile (sha : String → String) (s : BState)
    (pet_id viewer_public_key : String) (now : Nat) : Bool × BState :=
  match lookupPet s.pets pet_id with
  | none => (false, s)
  | some _ =>
      let cp := increment_view_count s.pets pet_id
      let tx : Tx := .profileView pet_id (hashed_key sha (some viewer_public_key)) cp.1 now
      (true,
        { s with
            pets := cp.2
            unconfirmed_transactions := s.unconfirmed_transactions ++ [tx] })

/-- Model of `Blockchain.report_pet_lost`: owner-gated; mark the pet lost and emit a
`PET_LOST` event. -/
def report_pet_lost (sha : String → String) (s : BState)
    (pet_id owner_public_key location description : String) (now : Nat) :
    Bool × BState :=
  match lookupPet s.pets pet_id with
  | none => (false, s)
  | some pet =>
      if pet.owner_public_key ≠ some owner_public_key then (false, s)
      else
        let pets1 := (mark_pet_lost s.pets pet_id (some location) (some description) now).2
        let tx : Tx := .petLost pet_id location description
          (hashed_key sha (some owner_public_key)) now
        (true,
          { s with
              pets := pets1
              unconfirmed_transactions := s.unconfirmed_transactions ++ [tx] })

/-- Model of `Blockchain.report_pet_found`: gated only on the current status being
`"lost"`; mark the pet found (storing the finder contact) and emit a
`PET_FOUND` event carrying the hashed finder key. -/
def report_pet_found (sha : String → String) (s : BState)
    (pet_id finder_public_key finder_contact : String) (now : Nat) :
    Bool × BState :=
  match lookupPet s.pets pet_id with
  | none => (false, s)
  | some pet =>
      if pet.status ≠ "lost" then (false, s)
      else
        let pets1 := (mark_pet_found s.pets pet_id (some finder_contact) now).2
        let tx : Tx := .petFound pet_id (hashed_key sha (some finder_public_key))
          finder_contact now
        (true,
          { s with
              pets := pets1
              unconfirmed_transactions := s.unconfirmed_transactions ++ [tx] })

/-- A history entry of `get_pet_blockchain_history`: a transaction copy
annotated either with the enclosing block's number and timestamp, or with
`status = "pending"` for pool transactions. -/
inductive HistoryEntry where
  | mined (tx : Tx) (block_number block_timestamp : Nat)
  | pending (tx : Tx)
deriving DecidableEq, Repr

/-- Model of `Blockchain.get_pet_blockchain_history`: imperative accumulation —
scan the chain in order, appending annotated copies of matching block
transactions, then scan the pool appending matching `pending` copies.
(Every modelled transaction is a dict, so `isinstance(tx, dict)` holds.) -/
def get_pet_blockchain_history (s : BState) (pet_id : String) : List HistoryEntry :=
  let mined := s.chain.foldl (fun h block =>
    block.transactions.foldl (fun h2 tx =>
      if txPetId tx = some pet_id then
        h2 ++ [.mined tx block.block_number block.timestamp]
      else h2) h) []
  s.unconfirmed_transactions.foldl (fun h tx =>
    if txPetId tx = some pet_id then h ++ [.pending tx] else h) mined

/-- Model of the `/mine` route body after the nonce is obtained from
`proof_of_work`: submit the mining-reward transfer (sender
`MINING_SENDER`, recipient the node id, empty signature, amount
`MINING_REWARD`), then create the block with `previous_hash` equal to the
hash of the chain's current last block.  Submission never touches the
chain, so the chain is still nonempty when its last block is read. -/
def mine_block (sha : String → String) (canonBlock : Block → String)
    (verifier : String → String → String → Nat → Option Bool) (s : BState)
    (node_id : String) (nonce now1 now2 : Nat) (h : s.chain ≠ []) : Block × BState :=
  have h1 : (submit_transaction sha verifier s MINING_SENDER node_id "" MINING_REWARD
      now1).2.chain ≠ [] := by
    unfold submit_transaction
    dsimp only
    split
    · exact h
    · split
      · exact h
      · exact h
  let s1 := (submit_transaction sha verifier s MINING_SENDER node_id "" MINING_REWARD now1).2
  let last_block := s1.chain.getLast h1
  create_block s1 now2 nonce (Blockchain.hash sha canonBlock last_block)

/-- One public orchestrator operation, as a relation between blockchain
states.  The `register` constructor carries the freshness of the generated
pet id (the source derives it from a SHA-256 digest of microchip, owner key
and current time, so a clash with an existing id is a hash collision); the
`mine` constructor allows any nonce, a sound over-approximation of the
value `proof_of_work` returns. -/
inductive Step (sha : String → String) (canonBlock : Block → String)
    (verifier : String → String → String → Nat → Option Bool) :
    BState → BState → Prop where
  | register (s : BState) (pet_data : PetData) (owner_public_key : String) (now : Nat)
      (hfresh : lookupPet s.pets
        (generate_pet_id sha (pet_data.microchip_id.getD "NO_CHIP") owner_public_key now)
          = none) :
      Step sha canonBlock verifier s (register_pet sha s pet_data owner_public_key now).2
  | vet (s : BState) (pet_id : String) (record : VetRecInput)
      (owner_public_key : String) (now : Nat) :
      Step sha canonBlock verifier s
        (add_vet_record_to_pet sha s pet_id record owner_public_key now).2
  | view (s : BState) (pet_id viewer_public_key : String) (now : Nat) :
      Step sha canonBlock verifier s (view_pet_profile sha s pet_id viewer_public_key now).2
  | lost (s : BState) (pet_id owner_public_key location description : String) (now : Nat) :
      Step sha canonBlock verifier s
        (report_pet_lost sha s pet_id owner_public_key location description now).2
  | found (s : BState) (pet_id finder_public_key finder_contact : String) (now : Nat) :
      Step sha canonBlock verifier s
        (report_pet_found sha s pet_id finder_public_key finder_contact now).2
  | submit (s : BState) (sender recipient signature : String) (amount now : Nat) :
      Step sha canonBlock verifier s
        (submit_transaction sha verifier s sender recipient signature amount now).2
  | mine (s : BState) (node_id : String) (nonce now1 now2 : Nat) (h : s.chain ≠ []) :
      Step sha canonBlock verifier s
        (mine_block sha canonBlock verifier s node_id nonce now1 now2 h).2

/-- States reachable from a freshly constructed `Blockchain` by orchestrator
operations. -/
inductive Reachable (sha : String → String) (canonBlock : Block → String)
    (verifier : String → String → String → Nat → Option Bool) : BState → Prop where
  | init (now : Nat) : Reachable sha canonBlock verifier (initState now)
  | step {s s' : BState} : Reachable sha canonBlock verifier s →
      Step sha canonBlock verifier s s' → Reachable sha canonBlock verifier s'

/-- Every transaction ever emitted, in emission order: the pool is FIFO and
is flushed wholesale into each new block, so emission order is the blocks'
transaction lists in chain order followed by the current pool. -/
def allTxs (s : BState) : List Tx :=
  (s.chain.flatMap fun b => b.transactions) ++ s.unconfirmed_transactions

/-- Iterated `create_block` calls (each entry is `(now, nonce, previous_hash)`). -/
def runCreates (s : BState) : List (Nat × Nat × String) → BState
  | [] => s
  | c :: rest => runCreates (create_block s c.1 c.2.1 c.2.2).2 rest

/-- Status of the profile stored under `pet_id`, if any. -/
def petStatus (pets : Pets) (pet_id : String) : Option String :=
  (lookupPet pets pet_id).map PetProfile.status

/-- The `view_count` values carried by the `PROFILE_VIEW` transactions for
`pet_id` in a transaction list, in order. -/
def viewEvents (pet_id : String) (txs : List Tx) : List Nat :=
  txs.filterMap fun tx =>
    match tx with
    | .profileView pid _ c _ => if pid = pet_id then some c else none
    | _ => none

/-- The sequence `[1, 2, ..., n]` of post-increment view counts. -/
def viewSeq : Nat → List Nat
  | 0 => []
  | n + 1 => viewSeq n ++ [n + 1]

/-- Concrete digest stub (identity) used to instantiate the abstract
SHA-256 capability on closed examples. -/
def shaId : String → String := fun str => str

/-- Concrete digest stub whose output always starts with two zeros. -/
def sha00 : String → String := fun str => "00" ++ str

/-- Concrete canonical pool serializer stub. -/
def canonTxs0 : List Tx → String := fun _ => ""

/-- Concrete canonical block serializer stub. -/
def canonBlock0 : Block → String := fun _ => ""

/-- Concrete signature verifier that always raises (Python exception,
modelled as `none`). -/
def verifierNone : String → String → String → Nat → Option Bool := fun _ _ _ _ => none

/-- Concrete signature verifier that always accepts. -/
def verifierTrue : String → String → String → Nat → Option Bool := fun _ _ _ _ => some true

/-- Concrete signature verifier that always rejects. -/
def verifierFalse : String → String → String → Nat → Option Bool := fun _ _ _ _ => some false

/-- Concrete pet-registration payload for closed examples. -/
def petDataW : PetData :=
  { name := some "Rex"
    breed := none
    species := none
    birth_date := none
    color := none
    weight := none
    microchip_id := some "C1"
    photo := none
    owner_public_key := none
    owner_name := some "Ann"
    owner_phone := some "555"
    owner_email := none }

/-- Concrete vet-record payload for closed examples. -/
def vetRecInputW : VetRecInput :=
  { record_type := some "vaccine"
    vet_name := some "Dr. Lee"
    vet_clinic := none
    vet_phone := none
    procedure := some "rabies shot"
    notes := none
    date := none
    next_due_date := none }

/-- Freshly constructed blockchain (genesis only). -/
def sW0 : BState := initState 0

/-- Pet id produced by the concrete registration below. -/
def pidW : String := (register_pet shaId sW0 petDataW "K1" 1).1

/-- State after registering one pet with owner key `"K1"`. -/
def sW1 : BState := (register_pet shaId sW0 petDataW "K1" 1).2

/-- State after additionally reporting that pet lost (by its owner). -/
def sW2 : BState := (report_pet_lost shaId sW1 pidW "K1" "park" "ran off" 2).2

/-- State after additionally reporting the pet found. -/
def sW3 : BState := (report_pet_found shaId sW2 pidW "F1" "call 555" 3).2

/-- State after viewing the registered pet's profile once. -/
def sWv : BState := (view_pet_profile shaId sW1 pidW "V1" 2).2

/-- State after mining one block on the fresh chain. -/
def sWm : BState :=
  (mine_block shaId canonBlock0 verifierNone sW0 "node" 7 1 2 (by decide)).2

/-- The profile created by the concrete registration. -/
def profileW : PetProfile :=
  (create_pet_profile shaId [] pidW { petDataW with owner_public_key := some "K1" } 1).1

/-- The concrete profile after its owner reported it lost. -/
def lostProfileW : PetProfile :=
  { profileW with
      status := "lost"
      lost_location := some "park"
      lost_description := some "ran off"
      lost_since := some 2 }

/-- The registration transaction emitted by the concrete registration. -/
def regTxW : Tx :=
  .petRegistration pidW (some "Rex") none (some "C1") (hashed_key shaId (some "K1")) 1

/-! ### Association-list lemmas for the pets dict -/

theorem lookupPet_setPet_self (pets : Pets) (pid : String) (p : PetProfile) :
    lookupPet (setPet pets pid p) pid = some p := by
  induction pets with
  | nil => simp [setPet, lookupPet]
  | cons kp rest ih =>
      obtain ⟨k, q⟩ := kp
      by_cases h : k = pid
      · simp [setPet, lookupPet, h]
      · simp [setPet, lookupPet, h, ih]

theorem lookupPet_setPet_ne (pets : Pets) (pid other : String) (p : PetProfile)
    (h : other ≠ pid) :
    lookupPet (setPet pets pid p) other = lookupPet pets other := by
  induction pets with
  | nil => simp [setPet, lookupPet, Ne.symm h]
  | cons kp rest ih =>
      obtain ⟨k, q⟩ := kp
      by_cases hk : k = pid
      · subst hk
        simp [setPet, lookupPet, Ne.symm h]
      · simp [setPet, lookupPet, hk, ih]

theorem lookupPet_updatePet_self (pets : Pets) (pid : String) (f : PetProfile → PetProfile) :
    lookupPet (updatePet pets pid f) pid = (lookupPet pets pid).map f := by
  induction pets with
  | nil => simp [updatePet, lookupPet]
  | cons kp rest ih =>
      obtain ⟨k, q⟩ := kp
      simp only [updatePet]
      by_cases h : k = pid
      · rw [if_pos h]
        simp [lookupPet, h]
      · rw [if_neg h]
        simp [lookupPet, h, ih]

theorem lookupPet_updatePet_ne (pets : Pets) (pid other : String)
    (f : PetProfile → PetProfile) (h : other ≠ pid) :
    lookupPet (updatePet pets pid f) other = lookupPet pets other := by
  induction pets with
  | nil => simp [updatePet, lookupPet]
  | cons kp rest ih =>
      obtain ⟨k, q⟩ := kp
      simp only [updatePet]
      by_cases hk : k = pid
      · rw [if_pos hk]
        subst hk
        simp [lookupPet, Ne.symm h, ih]
      · rw [if_neg hk]
        by_cases ho : k = other
        · simp [lookupPet, ho]
        · simp [lookupPet, ho, ih]

theorem lookupPet_updatePet (pets : Pets) (pid other : String)
    (f : PetProfile → PetProfile) :
    lookupPet (updatePet pets pid f) other =
      if other = pid then (lookupPet pets other).map f else lookupPet pets other := by
  by_cases h : other = pid
  · subst h; simp [lookupPet_updatePet_self]
  · simp [h, lookupPet_updatePet_ne pets pid other f h]

/-! ### Per-operation characterization lemmas -/

theorem allTxs_pool_append (s : BState) (txs : List Tx) :
    allTxs { s with unconfirmed_transactions := s.unconfirmed_transactions ++ txs }
      = allTxs s ++ txs := by
  simp [allTxs, List.append_assoc]

theorem create_block_fst (s : BState) (now nonce : Nat) (previous_hash : String) :
    (create_block s now nonce previous_hash).1 =
      { block_number := s.chain.length + 1
        timestamp := now
        transactions := s.unconfirmed_transactions
        nonce := nonce
        previous_hash := previous_hash } := rfl

theorem create_block_snd (s : BState) (now nonce : Nat) (previous_hash : String) :
    (create_block s now nonce previous_hash).2 =
      { unconfirmed_transactions := []
        chain := s.chain ++ [(create_block s now nonce previous_hash).1]
        pets := s.pets } := rfl

theorem allTxs_create_block (s : BState) (now nonce : Nat) (previous_hash : String) :
    allTxs (create_block s now nonce previous_hash).2 = allTxs s := by
  simp [allTxs, create_block]

theorem submit_transaction_mining (sha : String → String)
    (verifier : String → String → String → Nat → Option Bool) (s : BState)
    (recipient signature : String) (amount now : Nat) :
    submit_transaction sha verifier s MINING_SENDER recipient signature amount now =
      (some (s.chain.length + 1),
        { s with
            unconfirmed_transactions := s.unconfirmed_transactions ++
              [.valueTransfer (hashed_key sha (some MINING_SENDER))
                (hashed_key sha (some recipient)) amount now] }) := by
  unfold submit_transaction
  rw [if_pos rfl]

theorem submit_transaction_reject (sha : String → String)
    (verifier : String → String → String → Nat → Option Bool) (s : BState)
    (sender recipient signature : String) (amount now : Nat)
    (h1 : sender ≠ MINING_SENDER)
    (h2 : verify_transaction_signature verifier sender signature recipient amount = false) :
    submit_transaction sha verifier s sender recipient signature amount now = (none, s) := by
  unfold submit_transaction
  rw [if_neg h1, if_neg (by simp [h2])]

theorem submit_transaction_accept (sha : String → String)
    (verifier : String → String → String → Nat → Option Bool) (s : BState)
    (sender recipient signature : String) (amount now : Nat)
    (h1 : sender ≠ MINING_SENDER)
    (h2 : verify_transaction_signature verifier sender signature recipient amount = true) :
    submit_transaction sha verifier s sender recipient signature amount now =
      (some (s.chain.length + 1),
        { s with
            unconfirmed_transactions := s.unconfirmed_transactions ++
              [.valueTransfer (hashed_key sha (some sender))
                (hashed_key sha (some recipient)) amount now] }) := by
  unfold submit_transaction
  rw [if_neg h1, if_pos h2]

theorem submit_transaction_chain (sha : String → String)
    (verifier : String → String → String → Nat → Option Bool) (s : BState)
    (sender recipient signature : String) (amount now : Nat) :
    (submit_transaction sha verifier s sender recipient signature amount now).2.chain
      = s.chain := by
  unfold submit_transaction
  dsimp only
  split
  · rfl
  · split
    · rfl
    · rfl

theorem submit_transaction_pets (sha : String → String)
    (verifier : String → String → String → Nat → Option Bool) (s : BState)
    (sender recipient signature : String) (amount now : Nat) :
    (submit_transaction sha verifier s sender recipient signature amount now).2.pets
      = s.pets := by
  unfold submit_transaction
  dsimp only
  split
  · rfl
  · split
    · rfl
    · rfl

theorem register_pet_fst (sha : String → String) (s : BState) (pd : PetData)
    (owner : String) (now : Nat) :
    (register_pet sha s pd owner now).1
      = generate_pet_id sha (pd.microchip_id.getD "NO_CHIP") owner now := by
  simp only [register_pet]

theorem register_pet_chain (sha : String → String) (s : BState) (pd : PetData)
    (owner : String) (now : Nat) :
    (register_pet sha s pd owner now).2.chain = s.chain := rfl

theorem register_pet_pool (sha : String → String) (s : BState) (pd : PetData)
    (owner : String) (now : Nat) :
    (register_pet sha s pd owner now).2.unconfirmed_transactions
      = s.unconfirmed_transactions ++
        [.petRegistration (generate_pet_id sha (pd.microchip_id.getD "NO_CHIP") owner now)
          pd.name pd.species pd.microchip_id (hashed_key sha (some owner)) now] := rfl

theorem register_pet_pets (sha : String → String) (s : BState) (pd : PetData)
    (owner : String) (now : Nat) :
    (register_pet sha s pd owner now).2.pets
      = setPet s.pets (generate_pet_id sha (pd.microchip_id.getD "NO_CHIP") owner now)
          (create_pet_profile sha s.pets
            (generate_pet_id sha (pd.microchip_id.getD "NO_CHIP") owner now)
            { pd with owner_public_key := some owner } now).1 := rfl

theorem create_pet_profile_fst (sha : String → String) (pets : Pets) (pid : String)
    (pd : PetData) (now : Nat) :
    (create_pet_profile sha pets pid pd now).1 =
      { pet_id := pid
        name := pd.name
        breed := pd.breed
        species := pd.species.getD "dog"
        birth_date := pd.birth_date
        color := pd.color
        weight := pd.weight
        microchip_id := pd.microchip_id
        photo := pd.photo
        owner_public_key_hash := hashed_key sha pd.owner_public_key
        owner_public_key := pd.owner_public_key
        owner_name := pd.owner_name
        owner_phone := pd.owner_phone
        owner_email := pd.owner_email
        registered_at := now
        vet_records := []
        view_count := 0
        status := "active" } := rfl

theorem add_vet_record_to_pet_unknown (sha : String → String) (s : BState)
    (pid : String) (record : VetRecInput) (key : String) (now : Nat)
    (h : lookupPet s.pets pid = none) :
    add_vet_record_to_pet sha s pid record key now = (none, s) := by
  unfold add_vet_record_to_pet
  rw [h]

theorem add_vet_record_to_pet_wrongkey (sha : String → String) (s : BState)
    (pid : String) (record : VetRecInput) (key : String) (now : Nat) (p : PetProfile)
    (h : lookupPet s.pets pid = some p) (hk : p.owner_public_key ≠ some key) :
    add_vet_record_to_pet sha s pid record key now = (none, s) := by
  unfold add_vet_record_to_pet
  simp only [h]
  rw [if_pos hk]

theorem add_vet_record_some (sha : String → String) (pets : Pets) (pid : String)
    (record : VetRecInput) (now : Nat) (p : PetProfile)
    (h : lookupPet pets pid = some p) :
    add_vet_record sha pets pid record now =
      (some { record_id := strTake (sha (pid ++ "_" ++ toString now)) 12
              record_type := record.record_type
              vet_name := record.vet_name
              vet_clinic := record.vet_clinic
              vet_phone := record.vet_phone
              procedure := record.procedure
              notes := record.notes
              date := record.date.getD (toString now)
              next_due_date := record.next_due_date
              timestamp := now },
       updatePet pets pid (fun q =>
         { q with
             vet_records := q.vet_records ++
               [{ record_id := strTake (sha (pid ++ "_" ++ toString now)) 12
                  record_type := record.record_type
                  vet_name := record.vet_name
                  vet_clinic := record.vet_clinic
                  vet_phone := record.vet_phone
                  procedure := record.procedure
                  notes := record.notes
                  date := record.date.getD (toString now)
                  next_due_date := record.next_due_date
                  timestamp := now }] })) := by
  unfold add_vet_record
  simp only [h]

theorem add_vet_record_to_pet_success (sha : String → String) (s : BState)
    (pid : String) (record : VetRecInput) (key : String) (now : Nat) (p : PetProfile)
    (h : lookupPet s.pets pid = some p) (hk : p.owner_public_key = some key) :
    add_vet_record_to_pet sha s pid record key now =
      (some (strTake (sha (pid ++ "_" ++ toString now)) 12),
        { s with
            pets := updatePet s.pets pid (fun q =>
              { q with
                  vet_records := q.vet_records ++
                    [{ record_id := strTake (sha (pid ++ "_" ++ toString now)) 12
                       record_type := record.record_type
                       vet_name := record.vet_name
                       vet_clinic := record.vet_clinic
                       vet_phone := record.vet_phone
                       procedure := record.procedure
                       notes := record.notes
                       date := record.date.getD (toString now)
                       next_due_date := record.next_due_date
                       timestamp := now }] })
            unconfirmed_transactions := s.unconfirmed_transactions ++
              [.vetRecord pid (strTake (sha (pid ++ "_" ++ toString now)) 12)
                record.record_type record.vet_name (hashed_key sha (some key)) now] }) := by
  unfold add_vet_record_to_pet
  simp only [h]
  rw [if_neg (not_not_intro hk), add_vet_record_some sha s.pets pid record now p h]

theorem view_pet_profile_unknown (sha : String → String) (s : BState)
    (pid viewer : String) (now : Nat) (h : lookupPet s.pets pid = none) :
    view_pet_profile sha s pid viewer now = (false, s) := by
  unfold view_pet_profile
  rw [h]

theorem view_pet_profile_known (sha : String → String) (s : BState)
    (pid viewer : String) (now : Nat) (p : PetProfile)
    (h : lookupPet s.pets pid = some p) :
    view_pet_profile sha s pid viewer now =
      (true,
        { s with
            pets := updatePet s.pets pid (fun q => { q with view_count := q.view_count + 1 })
            unconfirmed_transactions := s.unconfirmed_transactions ++
              [.profileView pid (hashed_key sha (some viewer)) (p.view_count + 1) now] }) := by
  unfold view_pet_profile increment_view_count
  simp only [h]

theorem report_pet_lost_unknown (sha : String → String) (s : BState)
    (pid key location description : String) (now : Nat)
    (h : lookupPet s.pets pid = none) :
    report_pet_lost sha s pid key location description now = (false, s) := by
  unfold report_pet_lost
  rw [h]

theorem report_pet_lost_wrongkey (sha : String → String) (s : BState)
    (pid key location description : String) (now : Nat) (p : PetProfile)
    (h : lookupPet s.pets pid = some p) (hk : p.owner_public_key ≠ some key) :
    report_pet_lost sha s pid key location description now = (false, s) := by
  unfold report_pet_lost
  simp only [h]
  rw [if_pos hk]

theorem report_pet_lost_success (sha : String → String) (s : BState)
    (pid key location description : String) (now : Nat) (p : PetProfile)
    (h : lookupPet s.pets pid = some p) (hk : p.owner_public_key = some key) :
    report_pet_lost sha s pid key location description now =
      (true,
        { s with
            pets := updatePet s.pets pid (fun q =>
              { q with
                  status := "lost"
                  lost_location := some location
                  lost_description := some description
                  lost_since := some now })
            unconfirmed_transactions := s.unconfirmed_transactions ++
              [.petLost pid location description (hashed_key sha (some key)) now] }) := by
  unfold report_pet_lost mark_pet_lost
  simp only [h]
  rw [if_neg (not_not_intro hk)]

theorem report_pet_found_unknown (sha : String → String) (s : BState)
    (pid finder contact : String) (now : Nat) (h : lookupPet s.pets pid = none) :
    report_pet_found sha s pid finder contact now = (false, s) := by
  unfold report_pet_found
  rw [h]

theorem report_pet_found_notlost (sha : String → String) (s : BState)
    (pid finder contact : String) (now : Nat) (p : PetProfile)
    (h : lookupPet s.pets pid = some p) (hs : p.status ≠ "lost") :
    report_pet_found sha s pid finder contact now = (false, s) := by
  unfold report_pet_found
  simp only [h]
  rw [if_pos hs]

theorem report_pet_found_success (sha : String → String) (s : BState)
    (pid finder contact : String) (now : Nat) (p : PetProfile)
    (h : lookupPet s.pets pid = some p) (hs : p.status = "lost") :
    report_pet_found sha s pid finder contact now =
      (true,
        { s with
            pets := updatePet s.pets pid (fun q =>
              { q with
                  status := "active"
                  found_by := some contact
                  found_at := some now })
            unconfirmed_transactions := s.unconfirmed_transactions ++
              [.petFound pid (hashed_key sha (some finder)) contact now] }) := by
  unfold report_pet_found mark_pet_found
  simp only [h]
  rw [if_neg (not_not_intro hs)]

theorem mine_block_snd (sha : String → String) (canonBlock : Block → String)
    (verifier : String → String → String → Nat → Option Bool) (s : BState)
    (node_id : String) (nonce now1 now2 : Nat) (h : s.chain ≠ []) :
    (mine_block sha canonBlock verifier s node_id nonce now1 now2 h).2 =
      { unconfirmed_transactions := []
        chain := s.chain ++
          [{ block_number := s.chain.length + 1
             timestamp := now2
             transactions := s.unconfirmed_transactions ++
               [.valueTransfer (hashed_key sha (some MINING_SENDER))
                 (hashed_key sha (some node_id)) MINING_REWARD now1]
             nonce := nonce
             previous_hash := Blockchain.hash sha canonBlock (s.chain.getLast h) }]
        pets := s.pets } := by
  unfold mine_block
  simp only [submit_transaction_mining sha verifier s node_id "" MINING_REWARD now1]
  rfl

theorem linked_append (sha : String → String) (canonBlock : Block → String)
    (cs : List Block) (b : Block) (hne : cs ≠ [])
    (hb : b.previous_hash = Blockchain.hash sha canonBlock (cs.getLast hne))
    (hc : ∀ i, 0 < i → ∀ hi : i < cs.length,
      (cs[i]).previous_hash = Blockchain.hash sha canonBlock (cs[i-1])) :
    ∀ i, 0 < i → ∀ hi : i < (cs ++ [b]).length,
      ((cs ++ [b])[i]).previous_hash = Blockchain.hash sha canonBlock ((cs ++ [b])[i-1]) := by
  intro i h0 hi
  rw [List.length_append, List.length_singleton] at hi
  by_cases hlt : i < cs.length
  · rw [List.getElem_append_left hlt, List.getElem_append_left (by omega)]
    exact hc i h0 hlt
  · have hie : i = cs.length := by omega
    subst hie
    have hcpos : 0 < cs.length := List.length_pos.mpr hne
    rw [List.getElem_concat_length cs b cs.length rfl,
        List.getElem_append_left (by omega), hb,
        List.getLast_eq_getElem cs hne]

theorem add_vet_record_to_pet_chain (sha : String → String) (s : BState) (pid : String)
    (record : VetRecInput) (key : String) (now : Nat) :
    (add_vet_record_to_pet sha s pid record key now).2.chain = s.chain := by
  cases hl : lookupPet s.pets pid with
  | none => rw [add_vet_record_to_pet_unknown sha s pid record key now hl]
  | some p =>
      by_cases hk : p.owner_public_key = some key
      · rw [add_vet_record_to_pet_success sha s pid record key now p hl hk]
      · rw [add_vet_record_to_pet_wrongkey sha s pid record key now p hl hk]

theorem view_pet_profile_chain (sha : String → String) (s : BState)
    (pid viewer : String) (now : Nat) :
    (view_pet_profile sha s pid viewer now).2.chain = s.chain := by
  cases hl : lookupPet s.pets pid with
  | none => rw [view_pet_profile_unknown sha s pid viewer now hl]
  | some p => rw [view_pet_profile_known sha s pid viewer now p hl]

theorem report_pet_lost_chain (sha : String → String) (s : BState)
    (pid key location description : String) (now : Nat) :
    (report_pet_lost sha s pid key location description now).2.chain = s.chain := by
  cases hl : lookupPet s.pets pid with
  | none => rw [report_pet_lost_unknown sha s pid key location description now hl]
  | some p =>
      by_cases hk : p.owner_public_key = some key
      · rw [report_pet_lost_success sha s pid key location description now p hl hk]
      · rw [report_pet_lost_wrongkey sha s pid key location description now p hl hk]

theorem report_pet_found_chain (sha : String → String) (s : BState)
    (pid finder contact : String) (now : Nat) :
    (report_pet_found sha s pid finder contact now).2.chain = s.chain := by
  cases hl : lookupPet s.pets pid with
  | none => rw [report_pet_found_unknown sha s pid finder contact now hl]
  | some p =>
      by_cases hs : p.status = "lost"
      · rw [report_pet_found_success sha s pid finder contact now p hl hs]
      · rw [report_pet_found_notlost sha s pid finder contact now p hl hs]

theorem petStatus_updatePet_preserve (pets : Pets) (pid : String)
    (f : PetProfile → PetProfile) (hf : ∀ q, (f q).status = q.status) (other : String) :
    petStatus (updatePet pets pid f) other = petStatus pets other := by
  unfold petStatus
  rw [lookupPet_updatePet]
  by_cases h : other = pid
  · cases hq : lookupPet pets other with
    | none => simp [h, hq]
    | some q => simp [h, hq, hf]
  · simp [h]

theorem report_pet_lost_true_iff (sha : String → String) (s : BState)
    (pid key location description : String) (now : Nat) :
    (report_pet_lost sha s pid key location description now).1 = true ↔
      ∃ p, lookupPet s.pets pid = some p ∧ p.owner_public_key = some key := by
  constructor
  · intro ht
    cases hl : lookupPet s.pets pid with
    | none =>
        rw [report_pet_lost_unknown sha s pid key location description now hl] at ht
        simp at ht
    | some p =>
        by_cases hk : p.owner_public_key = some key
        · exact ⟨p, rfl, hk⟩
        · rw [report_pet_lost_wrongkey sha s pid key location description now p hl hk] at ht
          simp at ht
  · rintro ⟨p, hl, hk⟩
    rw [report_pet_lost_success sha s pid key location description now p hl hk]

theorem report_pet_found_true_iff (sha : String → String) (s : BState)
    (pid finder contact : String) (now : Nat) :
    (report_pet_found sha s pid finder contact now).1 = true ↔
      petStatus s.pets pid = some "lost" := by
  constructor
  · intro ht
    cases hl : lookupPet s.pets pid with
    | none =>
        rw [report_pet_found_unknown sha s pid finder contact now hl] at ht
        simp at ht
    | some p =>
        by_cases hs : p.status = "lost"
        · simp [petStatus, hl, hs]
        · rw [report_pet_found_notlost sha s pid finder contact now p hl hs] at ht
          simp at ht
  · intro hp
    unfold petStatus at hp
    cases hl : lookupPet s.pets pid with
    | none => rw [hl] at hp; simp at hp
    | some p =>
        rw [hl] at hp
        have hs : p.status = "lost" := by simpa using hp
        rw [report_pet_found_success sha s pid finder contact now p hl hs]

theorem allTxs_runCreates (calls : List (Nat × Nat × String)) (s : BState) :
    allTxs (runCreates s calls) = allTxs s := by
  induction calls generalizing s with
  | nil => rfl
  | cons cl rest ih =>
      rw [runCreates, ih, allTxs_create_block]

/-! ### Claims -/

/-- C1: hash-chain integrity.  In every state reachable from the genesis
state by orchestrator operations (in particular by the `/mine` flow, the
only operation that appends blocks, which always calls `create_block` with
`previous_hash` equal to the hash of the current last block), every block
at index `i > 0` satisfies
`chain[i].previous_hash = hash(chain[i-1])`, where `hash` is the digest of
the canonically serialized block. -/
theorem claim_C1 (sha : String → String) (canonBlock : Block → String)
    (verifier : String → String → String → Nat → Option Bool) (s : BState)
    (hr : Reachable sha canonBlock verifier s) :
    ∀ i, 0 < i → ∀ hi : i < s.chain.length,
      (s.chain[i]).previous_hash = Blockchain.hash sha canonBlock (s.chain[i-1]) := by
  induction hr with
  | init now =>
      intro i h0 hi
      simp [initState, create_block] at hi
      omega
  | step hr' st ih =>
      cases st with
      | register pd owner now hfresh =>
          simp only [register_pet_chain]
          exact ih
      | vet pid record key now =>
          simp only [add_vet_record_to_pet_chain]
          exact ih
      | view pid viewer now =>
          simp only [view_pet_profile_chain]
          exact ih
      | lost pid key location description now =>
          simp only [report_pet_lost_chain]
          exact ih
      | found pid finder contact now =>
          simp only [report_pet_found_chain]
          exact ih
      | submit sender recipient signature amount now =>
          simp only [submit_transaction_chain]
          exact ih
      | mine node_id nonce now1 now2 h =>
          simp only [mine_block_snd]
          exact linked_append sha canonBlock _ _ h rfl ih

/-- Closed instance of C1: after mining one block on a fresh chain, the
second block's `previous_hash` is the hash of the genesis block. -/
theorem claim_C1_witness :
    (sWm.chain[1]?).map Block.previous_hash
      = (sWm.chain[0]?).map (Blockchain.hash shaId canonBlock0) := by
  have hr : Reachable shaId canonBlock0 verifierNone sWm :=
    .step (.init 0) (.mine sW0 "node" 7 1 2 (by decide))
  have h1 : 1 < sWm.chain.length := by decide
  have heq := claim_C1 shaId canonBlock0 verifierNone sWm hr 1 (by decide) h1
  rw [List.getElem?_eq_getElem h1, List.getElem?_eq_getElem (by omega : 0 < sWm.chain.length)]
  simpa using heq

/-- C2: `create_block(nonce, previous_hash)` appends a block whose
transactions are exactly the pool contents in FIFO order and whose
`block_number` is the prior chain length plus one; afterwards the pool is
empty and the chain is the prior chain with that one block appended; the
concatenation of all block transactions and the pool (every transaction
occurrence, in order) is invariant under any sequence of `create_block`
calls, so no pool transaction is lost and none is duplicated into two
blocks. -/
theorem claim_C2 (s : BState) (now nonce : Nat) (previous_hash : String) :
    ((create_block s now nonce previous_hash).1.transactions
        = s.unconfirmed_transactions) ∧
    ((create_block s now nonce previous_hash).1.block_number = s.chain.length + 1) ∧
    ((create_block s now nonce previous_hash).2.unconfirmed_transactions = []) ∧
    ((create_block s now nonce previous_hash).2.chain
        = s.chain ++ [(create_block s now nonce previous_hash).1]) ∧
    ((create_block s now nonce previous_hash).2.pets = s.pets) ∧
    (allTxs (create_block s now nonce previous_hash).2 = allTxs s) ∧
    (∀ calls : List (Nat × Nat × String), allTxs (runCreates s calls) = allTxs s) :=
  ⟨rfl, rfl, rfl, rfl, rfl, allTxs_create_block s now nonce previous_hash,
   fun calls => allTxs_runCreates calls s⟩

/-- C3: `proof_of_work` returns the smallest nonce `n ≥ 0` whose guess hash
(over the serialized pool, the last block's hash and the decimal rendering
of `n`) starts with `MINING_DIFFICULTY = 2` leading `'0'` characters, and
is deterministic: identical inputs give the identical nonce.  The
hypothesis `hex0` is the termination condition of the Python `while True`
loop. -/
theorem claim_C3 (sha : String → String) (canonTxs : List Tx → String)
    (canonBlock : Block → String) (s : BState) (hne : s.chain ≠ [])
    (hex0 : ∃ n, powOk sha canonTxs s.unconfirmed_transactions
      (Blockchain.hash sha canonBlock (s.chain.getLast hne)) n = true) :
    (powOk sha canonTxs s.unconfirmed_transactions
        (Blockchain.hash sha canonBlock (s.chain.getLast hne))
        (proof_of_work sha canonTxs canonBlock s hne hex0) = true) ∧
    (∀ m, m < proof_of_work sha canonTxs canonBlock s hne hex0 →
      powOk sha canonTxs s.unconfirmed_transactions
        (Blockchain.hash sha canonBlock (s.chain.getLast hne)) m = false) ∧
    (∀ (hne2 : s.chain ≠ [])
        (hex2 : ∃ n, powOk sha canonTxs s.unconfirmed_transactions
          (Blockchain.hash sha canonBlock (s.chain.getLast hne2)) n = true),
      proof_of_work sha canonTxs canonBlock s hne hex0
        = proof_of_work sha canonTxs canonBlock s hne2 hex2) := by
  refine ⟨Nat.find_spec hex0, ?_, ?_⟩
  · intro m hm
    have hmin := Nat.find_min hex0 hm
    simpa using hmin
  · intro hne2 hex2
    rfl

/-- Closed instance of C3: with a digest stub whose output always starts
with `"00"`, the search on the fresh chain accepts its result and rejects
every smaller nonce. -/
theorem claim_C3_witness :
    powOk sha00 canonTxs0 sW0.unconfirmed_transactions
        (Blockchain.hash sha00 canonBlock0 (sW0.chain.getLast (by decide)))
        (proof_of_work sha00 canonTxs0 canonBlock0 sW0 (by decide)
          ⟨0, by decide⟩) = true :=
  (claim_C3 sha00 canonTxs0 canonBlock0 sW0 (by decide) ⟨0, by decide⟩).1

/-- C9: `increment_view_count` on an unknown pet id returns `0` and leaves
the registry unchanged; on a known pet it returns the bumped counter, which
is at least `1`; hence the result is `0` exactly when the pet id is
unknown. -/
theorem claim_C9 (pets : Pets) (pet_id : String) :
    (lookupPet pets pet_id = none → increment_view_count pets pet_id = (0, pets)) ∧
    (∀ p, lookupPet pets pet_id = some p →
      increment_view_count pets pet_id
          = (p.view_count + 1,
             updatePet pets pet_id (fun q => { q with view_count := q.view_count + 1 })) ∧
      1 ≤ (increment_view_count pets pet_id).1) ∧
    ((increment_view_count pets pet_id).1 = 0 ↔ lookupPet pets pet_id = none) := by
  refine ⟨?_, ?_, ?_⟩
  · intro h
    unfold increment_view_count
    rw [h]
  · intro p h
    have he : increment_view_count pets pet_id
        = (p.view_count + 1,
           updatePet pets pet_id (fun q => { q with view_count := q.view_count + 1 })) := by
      unfold increment_view_count
      simp only [h]
    refine ⟨he, ?_⟩
    rw [he]
    exact Nat.succ_le_succ (Nat.zero_le _)
  · cases hl : lookupPet pets pet_id with
    | none =>
        unfold increment_view_count
        rw [hl]
        simp
    | some p =>
        unfold increment_view_count
        simp only [hl]
        simp

/-- Closed instance of C9: the empty registry yields `(0, [])`; after the
concrete registration, the first view count is `1`. -/
theorem claim_C9_witness :
    increment_view_count [] "pet" = (0, ([] : Pets)) ∧
    (increment_view_count sW1.pets pidW).1 = 1 := by
  refine ⟨(claim_C9 [] "pet").1 rfl, ?_⟩
  have h := ((claim_C9 sW1.pets pidW).2.1 profileW (by decide)).1
  rw [h]
  rfl

theorem verify_transaction_signature_raise
    (verifier : String → String → String → Nat → Option Bool)
    (sender signature recipient : String) (amount : Nat)
    (h : verifier sender signature recipient amount = none) :
    verify_transaction_signature verifier sender signature recipient amount = false := by
  unfold verify_transaction_signature
  rw [h]

/-- C7: `submit_transaction` appends the mining-reward transfer without
verification and returns the prospective next block number
`len(chain) + 1`; for any other sender a failed verification — including a
verifier that raises, modelled by `none`, which the bare `except` converts
to `false` — yields `(False, unchanged state)` without propagating
anything, while a successful verification appends the transfer and returns
`len(chain) + 1`. -/
theorem claim_C7 (sha : String → String)
    (verifier : String → String → String → Nat → Option Bool) :
    (∀ (s : BState) (recipient signature : String) (amount now : Nat),
      submit_transaction sha verifier s MINING_SENDER recipient signature amount now
        = (some (s.chain.length + 1),
           { s with
               unconfirmed_transactions := s.unconfirmed_transactions ++
                 [.valueTransfer (hashed_key sha (some MINING_SENDER))
                   (hashed_key sha (some recipient)) amount now] })) ∧
    (∀ (s : BState) (sender recipient signature : String) (amount now : Nat),
      sender ≠ MINING_SENDER →
      verify_transaction_signature verifier sender signature recipient amount = false →
      submit_transaction sha verifier s sender recipient signature amount now = (none, s)) ∧
    (∀ (sender signature recipient : String) (amount : Nat),
      verifier sender signature recipient amount = none →
      verify_transaction_signature verifier sender signature recipient amount = false) ∧
    (∀ (s : BState) (sender recipient signature : String) (amount now : Nat),
      sender ≠ MINING_SENDER →
      verify_transaction_signature verifier sender signature recipient amount = true →
      submit_transaction sha verifier s sender recipient signature amount now
        = (some (s.chain.length + 1),
           { s with
               unconfirmed_transactions := s.unconfirmed_transactions ++
                 [.valueTransfer (hashed_key sha (some sender))
                   (hashed_key sha (some recipient)) amount now] })) := by
  refine ⟨?_, ?_, ?_, ?_⟩
  · intro s recipient signature amount now
    exact submit_transaction_mining sha verifier s recipient signature amount now
  · intro s sender recipient signature amount now h1 h2
    exact submit_transaction_reject sha verifier s sender recipient signature amount now h1 h2
  · intro sender signature recipient amount h
    exact verify_transaction_signature_raise verifier sender signature recipient amount h
  · intro s sender recipient signature amount now h1 h2
    exact submit_transaction_accept sha verifier s sender recipient signature amount now h1 h2

/-- Closed instance of C7: a rejecting verifier leaves the state unchanged
and returns `False`; a raising verifier is converted to `false`; an
accepting verifier and the mining-reward sender both return the
prospective block number `2` on the fresh chain. -/
theorem claim_C7_witness :
    (submit_transaction shaId verifierFalse sW0 "S" "R" "g" 1 5 = (none, sW0)) ∧
    (verify_transaction_signature verifierNone "S" "g" "R" 1 = false) ∧
    ((submit_transaction shaId verifierTrue sW0 "S" "R" "g" 1 5).1 = some 2) ∧
    ((submit_transaction shaId verifierNone sW0 MINING_SENDER "R" "" 1 5).1 = some 2) := by
  refine ⟨?_, ?_, ?_, ?_⟩
  · exact (claim_C7 shaId verifierFalse).2.1 sW0 "S" "R" "g" 1 5 (by decide) rfl
  · exact (claim_C7 shaId verifierNone).2.2.1 "S" "g" "R" 1 rfl
  · rw [(claim_C7 shaId verifierTrue).2.2.2 sW0 "S" "R" "g" 1 5 (by decide) rfl]
    rfl
  · rw [(claim_C7 shaId verifierNone).1 sW0 "R" "" 1 5]
    rfl

/-- C5: `add_vet_record_to_pet` fails closed — returning `False` (here
`none`) and leaving the whole state (pool and `vet_records` included)
unchanged — whenever the pet id is unknown or the supplied raw owner key
differs from the stored `owner_public_key`; on a matching key it returns
the new `record_id`, appends exactly that one record to the pet's
`vet_records`, and emits exactly one `VET_RECORD` transaction. -/
theorem claim_C5 (sha : String → String) :
    (∀ (s : BState) (pid : String) (record : VetRecInput) (key : String) (now : Nat),
      lookupPet s.pets pid = none →
      add_vet_record_to_pet sha s pid record key now = (none, s)) ∧
    (∀ (s : BState) (pid : String) (record : VetRecInput) (key : String) (now : Nat)
        (p : PetProfile),
      lookupPet s.pets pid = some p → p.owner_public_key ≠ some key →
      add_vet_record_to_pet sha s pid record key now = (none, s)) ∧
    (∀ (s : BState) (pid : String) (record : VetRecInput) (key : String) (now : Nat)
        (p : PetProfile),
      lookupPet s.pets pid = some p → p.owner_public_key = some key →
      (add_vet_record_to_pet sha s pid record key now).1
          = some (strTake (sha (pid ++ "_" ++ toString now)) 12) ∧
      lookupPet (add_vet_record_to_pet sha s pid record key now).2.pets pid
          = some { p with
              vet_records := p.vet_records ++
                [{ record_id := strTake (sha (pid ++ "_" ++ toString now)) 12
                   record_type := record.record_type
                   vet_name := record.vet_name
                   vet_clinic := record.vet_clinic
                   vet_phone := record.vet_phone
                   procedure := record.procedure
                   notes := record.notes
                   date := record.date.getD (toString now)
                   next_due_date := record.next_due_date
                   timestamp := now }] } ∧
      (add_vet_record_to_pet sha s pid record key now).2.unconfirmed_transactions
          = s.unconfirmed_transactions ++
            [.vetRecord pid (strTake (sha (pid ++ "_" ++ toString now)) 12)
              record.record_type record.vet_name (hashed_key sha (some key)) now]) := by
  refine ⟨?_, ?_, ?_⟩
  · intro s pid record key now h
    exact add_vet_record_to_pet_unknown sha s pid record key now h
  · intro s pid record key now p h hk
    exact add_vet_record_to_pet_wrongkey sha s pid record key now p h hk
  · intro s pid record key now p h hk
    rw [add_vet_record_to_pet_success sha s pid record key now p h hk]
    refine ⟨rfl, ?_, rfl⟩
    rw [lookupPet_updatePet_self, h]
    rfl

/-- Closed instance of C5: a wrong owner key on the concrete registered pet
is rejected with the state unchanged, while the stored key succeeds and
appends one record. -/
theorem claim_C5_witness :
    (add_vet_record_to_pet shaId sW1 pidW vetRecInputW "K2" 3 = (none, sW1)) ∧
    ((add_vet_record_to_pet shaId sW1 pidW vetRecInputW "K1" 3).1
        = some (strTake (shaId (pidW ++ "_" ++ toString 3)) 12)) ∧
    ((lookupPet (add_vet_record_to_pet shaId sW1 pidW vetRecInputW "K1" 3).2.pets pidW).map
        (fun q => q.vet_records.length) = some 1) := by
  refine ⟨?_, ?_, ?_⟩
  · exact (claim_C5 shaId).2.1 sW1 pidW vetRecInputW "K2" 3 profileW (by decide) (by decide)
  · exact ((claim_C5 shaId).2.2 sW1 pidW vetRecInputW "K1" 3 profileW (by decide) (by decide)).1
  · rw [((claim_C5 shaId).2.2 sW1 pidW vetRecInputW "K1" 3 profileW (by decide) (by decide)).2.1]
    rfl

/-- C10: when `report_pet_found` succeeds (the pet exists and its status is
`"lost"`), the profile's `found_by` is set to the `finder_contact`
argument — not the finder's key or its hash; the finder's public key
appears only as its truncated hash inside the emitted `PET_FOUND`
transaction, and the resulting registry does not depend on the finder key
at all. -/
theorem claim_C10 (sha : String → String) :
    ∀ (s : BState) (pid finder contact : String) (now : Nat) (p : PetProfile),
      lookupPet s.pets pid = some p → p.status = "lost" →
      ((report_pet_found sha s pid finder contact now).1 = true) ∧
      (lookupPet (report_pet_found sha s pid finder contact now).2.pets pid
          = some { p with
              status := "active", found_by := some contact, found_at := some now }) ∧
      ((report_pet_found sha s pid finder contact now).2.unconfirmed_transactions
          = s.unconfirmed_transactions ++
            [.petFound pid (hashed_key sha (some finder)) contact now]) ∧
      (∀ finder2 : String,
        (report_pet_found sha s pid finder2 contact now).2.pets
          = (report_pet_found sha s pid finder contact now).2.pets) := by
  intro s pid finder contact now p h hs
  rw [report_pet_found_success sha s pid finder contact now p h hs]
  refine ⟨rfl, ?_, rfl, ?_⟩
  · rw [lookupPet_updatePet_self, h]
    rfl
  · intro finder2
    rw [report_pet_found_success sha s pid finder2 contact now p h hs]

set_option maxRecDepth 4000 in
/-- Closed instance of C10: on the concrete lost pet, a found report stores
the finder contact in `found_by` and flips the status back to active. -/
theorem claim_C10_witness :
    ((report_pet_found shaId sW2 pidW "F1" "call 555" 3).1 = true) ∧
    (lookupPet sW3.pets pidW
        = some { lostProfileW with
            status := "active", found_by := some "call 555", found_at := some 3 }) := by
  have h := claim_C10 shaId sW2 pidW "F1" "call 555" 3 lostProfileW (by decide) rfl
  exact ⟨h.1, h.2.1⟩

theorem hist_fold_tx (pid : String) (g : Tx → HistoryEntry) (xs : List Tx)
    (acc : List HistoryEntry) :
    xs.foldl (fun h2 tx => if txPetId tx = some pid then h2 ++ [g tx] else h2) acc
      = acc ++ (xs.filter (fun tx => txPetId tx = some pid)).map g := by
  induction xs generalizing acc with
  | nil => simp
  | cons tx rest ih =>
      by_cases h : txPetId tx = some pid
      · simp [h, ih, List.append_assoc]
      · simp [h, ih]

theorem hist_fold_chain (pid : String) (chain : List Block) (acc : List HistoryEntry) :
    chain.foldl (fun h block =>
        block.transactions.foldl (fun h2 tx =>
          if txPetId tx = some pid then h2 ++ [.mined tx block.block_number block.timestamp]
          else h2) h) acc
      = acc ++ chain.flatMap (fun block =>
          (block.transactions.filter (fun tx => txPetId tx = some pid)).map
            (fun tx => HistoryEntry.mined tx block.block_number block.timestamp)) := by
  induction chain generalizing acc with
  | nil => simp
  | cons b rest ih =>
      rw [List.foldl_cons, hist_fold_tx, ih, List.flatMap_cons, List.append_assoc]

theorem get_pet_blockchain_history_eq (s : BState) (pid : String) :
    get_pet_blockchain_history s pid =
      s.chain.flatMap (fun block =>
        (block.transactions.filter (fun tx => txPetId tx = some pid)).map
          (fun tx => HistoryEntry.mined tx block.block_number block.timestamp))
      ++ (s.unconfirmed_transactions.filter (fun tx => txPetId tx = some pid)).map
          HistoryEntry.pending := by
  unfold get_pet_blockchain_history
  rw [hist_fold_chain, hist_fold_tx]
  simp

/-- C8: `get_pet_blockchain_history(pet_id)` returns exactly the matching
transactions: first those of the mined blocks, scanned oldest block first
and annotated with the block's number and timestamp, then the matching
pool transactions in insertion order, annotated pending; consequently a
single unmined matching transaction shows up as exactly one pending entry,
and after `create_block` it shows up as the single mined entry (with the
new block's number) while the pending entry disappears. -/
theorem claim_C8 :
    (∀ (s : BState) (pid : String),
      get_pet_blockchain_history s pid =
        s.chain.flatMap (fun block =>
          (block.transactions.filter (fun tx => txPetId tx = some pid)).map
            (fun tx => HistoryEntry.mined tx block.block_number block.timestamp))
        ++ (s.unconfirmed_transactions.filter (fun tx => txPetId tx = some pid)).map
            HistoryEntry.pending) ∧
    (∀ (s : BState) (pid : String) (tx : Tx),
      txPetId tx = some pid →
      (∀ b ∈ s.chain, ∀ t ∈ b.transactions, txPetId t ≠ some pid) →
      s.unconfirmed_transactions = [tx] →
      get_pet_blockchain_history s pid = [.pending tx] ∧
      (∀ (now nonce : Nat) (ph : String),
        get_pet_blockchain_history (create_block s now nonce ph).2 pid
          = [.mined tx (s.chain.length + 1) now])) := by
  constructor
  · intro s pid
    exact get_pet_blockchain_history_eq s pid
  · intro s pid tx htx hchain hpool
    have hmined : s.chain.flatMap (fun block =>
        (block.transactions.filter (fun tx => txPetId tx = some pid)).map
          (fun tx => HistoryEntry.mined tx block.block_number block.timestamp)) = [] := by
      rw [List.flatMap_eq_nil_iff]
      intro b hb
      rw [List.map_eq_nil_iff, List.filter_eq_nil_iff]
      intro t ht
      simpa using hchain b hb t ht
    constructor
    · rw [get_pet_blockchain_history_eq, hmined, hpool]
      simp [htx]
    · intro now nonce ph
      rw [get_pet_blockchain_history_eq]
      simp only [create_block]
      rw [List.flatMap_append, hmined, hpool]
      simp [htx]

/-- Closed instance of C8: the concrete registration is a single pending
entry before mining and the single mined entry of block `2` afterwards. -/
theorem claim_C8_witness :
    (get_pet_blockchain_history sW1 pidW = [.pending regTxW]) ∧
    (get_pet_blockchain_history (create_block sW1 5 0 "ph").2 pidW
      = [.mined regTxW 2 5]) := by
  have h := claim_C8.2 sW1 pidW regTxW (by decide) (by decide) (by decide)
  exact ⟨h.1, h.2 5 0 "ph"⟩

theorem add_vet_record_to_pet_petStatus (sha : String → String) (s : BState)
    (pid : String) (record : VetRecInput) (key : String) (now : Nat) (other : String) :
    petStatus (add_vet_record_to_pet sha s pid record key now).2.pets other
      = petStatus s.pets other := by
  cases hl : lookupPet s.pets pid with
  | none => rw [add_vet_record_to_pet_unknown sha s pid record key now hl]
  | some p =>
      by_cases hk : p.owner_public_key = some key
      · rw [add_vet_record_to_pet_success sha s pid record key now p hl hk]
        apply petStatus_updatePet_preserve
        intro q
        rfl
      · rw [add_vet_record_to_pet_wrongkey sha s pid record key now p hl hk]

theorem view_pet_profile_petStatus (sha : String → String) (s : BState)
    (pid viewer : String) (now : Nat) (other : String) :
    petStatus (view_pet_profile sha s pid viewer now).2.pets other
      = petStatus s.pets other := by
  cases hl : lookupPet s.pets pid with
  | none => rw [view_pet_profile_unknown sha s pid viewer now hl]
  | some p =>
      rw [view_pet_profile_known sha s pid viewer now p hl]
      apply petStatus_updatePet_preserve
      intro q
      rfl

theorem report_pet_lost_false_state (sha : String → String) (s : BState)
    (pid key location description : String) (now : Nat)
    (hf : (report_pet_lost sha s pid key location description now).1 = false) :
    report_pet_lost sha s pid key location description now = (false, s) := by
  cases hl : lookupPet s.pets pid with
  | none => exact report_pet_lost_unknown sha s pid key location description now hl
  | some p =>
      by_cases hk : p.owner_public_key = some key
      · rw [report_pet_lost_success sha s pid key location description now p hl hk] at hf
        simp at hf
      · exact report_pet_lost_wrongkey sha s pid key location description now p hl hk

theorem report_pet_found_false_state (sha : String → String) (s : BState)
    (pid finder contact : String) (now : Nat)
    (hf : (report_pet_found sha s pid finder contact now).1 = false) :
    report_pet_found sha s pid finder contact now = (false, s) := by
  cases hl : lookupPet s.pets pid with
  | none => exact report_pet_found_unknown sha s pid finder contact now hl
  | some p =>
      by_cases hs : p.status = "lost"
      · rw [report_pet_found_success sha s pid finder contact now p hl hs] at hf
        simp at hf
      · exact report_pet_found_notlost sha s pid finder contact now p hl hs

/-- C4: per-pet status state machine.  A fresh registration creates the pet
with status `"active"` and touches no other profile; vet records, profile
views, value transfers and mining never change any status; a status
becomes `"lost"` only through `report_pet_lost`, which succeeds exactly
when the supplied raw key equals the stored `owner_public_key` (and
otherwise leaves the state unchanged); a status becomes `"active"` again
only through `report_pet_found`, which succeeds exactly when the current
status is `"lost"` with no identity check — in particular on an active pet
it returns `false` and changes nothing — and on success sets `found_by`;
after a successful `report_pet_lost` a `report_pet_found` succeeds, leaving
the status `"active"` and `found_by` set. -/
theorem claim_C4 (sha : String → String) :
    (∀ (s : BState) (pd : PetData) (owner : String) (now : Nat),
      lookupPet s.pets (generate_pet_id sha (pd.microchip_id.getD "NO_CHIP") owner now)
          = none →
      petStatus (register_pet sha s pd owner now).2.pets
          (generate_pet_id sha (pd.microchip_id.getD "NO_CHIP") owner now)
          = some "active" ∧
      (∀ other, other ≠ generate_pet_id sha (pd.microchip_id.getD "NO_CHIP") owner now →
        lookupPet (register_pet sha s pd owner now).2.pets other
          = lookupPet s.pets other)) ∧
    (∀ (s : BState) (pid : String) (record : VetRecInput) (key : String) (now : Nat)
        (other : String),
      petStatus (add_vet_record_to_pet sha s pid record key now).2.pets other
        = petStatus s.pets other) ∧
    (∀ (s : BState) (pid viewer : String) (now : Nat) (other : String),
      petStatus (view_pet_profile sha s pid viewer now).2.pets other
        = petStatus s.pets other) ∧
    (∀ (verifier : String → String → String → Nat → Option Bool) (s : BState)
        (sender recipient signature : String) (amount now : Nat),
      (submit_transaction sha verifier s sender recipient signature amount now).2.pets
        = s.pets) ∧
    (∀ (canonBlock : Block → String)
        (verifier : String → String → String → Nat → Option Bool) (s : BState)
        (node_id : String) (nonce now1 now2 : Nat) (h : s.chain ≠ []),
      (mine_block sha canonBlock verifier s node_id nonce now1 now2 h).2.pets = s.pets) ∧
    (∀ (s : BState) (pid key location description : String) (now : Nat),
      ((report_pet_lost sha s pid key location description now).1 = true ↔
        ∃ p, lookupPet s.pets pid = some p ∧ p.owner_public_key = some key) ∧
      ((report_pet_lost sha s pid key location description now).1 = false →
        report_pet_lost sha s pid key location description now = (false, s)) ∧
      ((report_pet_lost sha s pid key location description now).1 = true →
        petStatus (report_pet_lost sha s pid key location description now).2.pets pid
          = some "lost") ∧
      (∀ other, other ≠ pid →
        petStatus (report_pet_lost sha s pid key location description now).2.pets other
          = petStatus s.pets other)) ∧
    (∀ (s : BState) (pid finder contact : String) (now : Nat),
      ((report_pet_found sha s pid finder contact now).1 = true ↔
        petStatus s.pets pid = some "lost") ∧
      ((report_pet_found sha s pid finder contact now).1 = false →
        report_pet_found sha s pid finder contact now = (false, s)) ∧
      (petStatus s.pets pid = some "active" →
        report_pet_found sha s pid finder contact now = (false, s)) ∧
      ((report_pet_found sha s pid finder contact now).1 = true →
        petStatus (report_pet_found sha s pid finder contact now).2.pets pid
            = some "active" ∧
        (lookupPet (report_pet_found sha s pid finder contact now).2.pets pid).map
            PetProfile.found_by = some (some contact)) ∧
      (∀ other, other ≠ pid →
        petStatus (report_pet_found sha s pid finder contact now).2.pets other
          = petStatus s.pets other)) ∧
    (∀ (s : BState) (pid key location description : String) (now1 : Nat)
        (finder contact : String) (now2 : Nat),
      (report_pet_lost sha s pid key location description now1).1 = true →
      ((report_pet_found sha (report_pet_lost sha s pid key location description now1).2
          pid finder contact now2).1 = true) ∧
      petStatus (report_pet_found sha
          (report_pet_lost sha s pid key location description now1).2
          pid finder contact now2).2.pets pid = some "active" ∧
      (lookupPet (report_pet_found sha
          (report_pet_lost sha s pid key location description now1).2
          pid finder contact now2).2.pets pid).map PetProfile.found_by
        = some (some contact)) := by
  refine ⟨?_, ?_, ?_, ?_, ?_, ?_, ?_, ?_⟩
  · intro s pd owner now hfresh
    constructor
    · rw [register_pet_pets]
      unfold petStatus
      rw [lookupPet_setPet_self]
      rfl
    · intro other hother
      rw [register_pet_pets, lookupPet_setPet_ne _ _ _ _ hother]
  · intro s pid record key now other
    exact add_vet_record_to_pet_petStatus sha s pid record key now other
  · intro s pid viewer now other
    exact view_pet_profile_petStatus sha s pid viewer now other
  · intro verifier s sender recipient signature amount now
    exact submit_transaction_pets sha verifier s sender recipient signature amount now
  · intro canonBlock verifier s node_id nonce now1 now2 h
    rw [mine_block_snd]
  · intro s pid key location description now
    refine ⟨report_pet_lost_true_iff sha s pid key location description now,
      report_pet_lost_false_state sha s pid key location description now, ?_, ?_⟩
    · intro ht
      obtain ⟨p, hl, hk⟩ :=
        (report_pet_lost_true_iff sha s pid key location description now).mp ht
      rw [report_pet_lost_success sha s pid key location description now p hl hk]
      unfold petStatus
      dsimp only
      rw [lookupPet_updatePet_self, hl]
      rfl
    · intro other hother
      cases hl : lookupPet s.pets pid with
      | none => rw [report_pet_lost_unknown sha s pid key location description now hl]
      | some p =>
          by_cases hk : p.owner_public_key = some key
          · rw [report_pet_lost_success sha s pid key location description now p hl hk]
            unfold petStatus
            dsimp only
            rw [lookupPet_updatePet_ne _ _ _ _ hother]
          · rw [report_pet_lost_wrongkey sha s pid key location description now p hl hk]
  · intro s pid finder contact now
    refine ⟨report_pet_found_true_iff sha s pid finder contact now,
      report_pet_found_false_state sha s pid finder contact now, ?_, ?_, ?_⟩
    · intro hact
      unfold petStatus at hact
      cases hl : lookupPet s.pets pid with
      | none => rw [hl] at hact; simp at hact
      | some p =>
          rw [hl] at hact
          have hs : p.status = "active" := by simpa using hact
          exact report_pet_found_notlost sha s pid finder contact now p hl
            (by rw [hs]; decide)
    · intro ht
      have hp := (report_pet_found_true_iff sha s pid finder contact now).mp ht
      unfold petStatus at hp
      cases hl : lookupPet s.pets pid with
      | none => rw [hl] at hp; simp at hp
      | some p =>
          rw [hl] at hp
          have hs : p.status = "lost" := by simpa using hp
          rw [report_pet_found_success sha s pid finder contact now p hl hs]
          constructor
          · unfold petStatus
            dsimp only
            rw [lookupPet_updatePet_self, hl]
            rfl
          · dsimp only
            rw [lookupPet_updatePet_self, hl]
            rfl
    · intro other hother
      cases hl : lookupPet s.pets pid with
      | none => rw [report_pet_found_unknown sha s pid finder contact now hl]
      | some p =>
          by_cases hs : p.status = "lost"
          · rw [report_pet_found_success sha s pid finder contact now p hl hs]
            unfold petStatus
            dsimp only
            rw [lookupPet_updatePet_ne _ _ _ _ hother]
          · rw [report_pet_found_notlost sha s pid finder contact now p hl hs]
  · intro s pid key location description now1 finder contact now2 ht
    obtain ⟨p, hl, hk⟩ :=
      (report_pet_lost_true_iff sha s pid key location description now1).mp ht
    rw [report_pet_lost_success sha s pid key location description now1 p hl hk]
    have hl1 : lookupPet (updatePet s.pets pid (fun q =>
        { q with
            status := "lost"
            lost_location := some location
            lost_description := some description
            lost_since := some now1 })) pid
        = some { p with
            status := "lost"
            lost_location := some location
            lost_description := some description
            lost_since := some now1 } := by
      rw [lookupPet_updatePet_self, hl]
      rfl
    rw [report_pet_found_success sha _ pid finder contact now2 _ hl1 rfl]
    refine ⟨rfl, ?_, ?_⟩
    · unfold petStatus
      dsimp only
      rw [lookupPet_updatePet_self, hl1]
      rfl
    · dsimp only
      rw [lookupPet_updatePet_self, hl1]
      rfl

set_option maxRecDepth 8000 in
/-- Closed instance of C4: a found report on the freshly registered (still
active) pet is rejected with the state unchanged, while after the owner
reports it lost a found report flips it back to active with `found_by`
recorded. -/
theorem claim_C4_witness :
    (report_pet_found shaId sW1 pidW "F2" "c2" 9 = (false, sW1)) ∧
    (petStatus sW3.pets pidW = some "active") ∧
    ((lookupPet sW3.pets pidW).map PetProfile.found_by = some (some "call 555")) := by
  have h7 := (claim_C4 shaId).2.2.2.2.2.2.1 sW1 pidW "F2" "c2" 9
  have h8 := (claim_C4 shaId).2.2.2.2.2.2.2 sW1 pidW "K1" "park" "ran off" 2
    "F1" "call 555" 3 (by decide)
  exact ⟨h7.2.2.1 (by decide), h8.2.1, h8.2.2⟩

theorem viewEvents_append (pid : String) (xs ys : List Tx) :
    viewEvents pid (xs ++ ys) = viewEvents pid xs ++ viewEvents pid ys := by
  simp [viewEvents, List.filterMap_append]

theorem viewSeq_length (n : Nat) : (viewSeq n).length = n := by
  induction n with
  | zero => rfl
  | succ n ih => simp [viewSeq, ih]

theorem viewSeq_succ (n : Nat) : viewSeq (n + 1) = viewSeq n ++ [n + 1] := rfl

theorem viewSeq_getElem (n k : Nat) (hk : k < (viewSeq n).length) :
    (viewSeq n)[k] = k + 1 := by
  induction n with
  | zero => simp [viewSeq] at hk
  | succ n ih =>
      have hl : (viewSeq n).length = n := viewSeq_length n
      rw [viewSeq_length] at hk
      by_cases h : k < n
      · simp only [viewSeq_succ]
        rw [List.getElem_append_left (by omega)]
        exact ih (by omega)
      · have hkn : k = n := by omega
        subst hkn
        simp only [viewSeq_succ]
        rw [List.getElem_concat_length _ _ _ hl.symm]

theorem allTxs_set_pool_pets (s : BState) (txs : List Tx) (pets2 : Pets) :
    allTxs { unconfirmed_transactions := s.unconfirmed_transactions ++ txs
             chain := s.chain
             pets := pets2 }
      = allTxs s ++ txs := by
  simp [allTxs, List.append_assoc]

theorem allTxs_mine (sha : String → String) (canonBlock : Block → String)
    (verifier : String → String → String → Nat → Option Bool) (s : BState)
    (node_id : String) (nonce now1 now2 : Nat) (h : s.chain ≠ []) :
    allTxs (mine_block sha canonBlock verifier s node_id nonce now1 now2 h).2
      = allTxs s ++ [.valueTransfer (hashed_key sha (some MINING_SENDER))
          (hashed_key sha (some node_id)) MINING_REWARD now1] := by
  rw [mine_block_snd]
  simp [allTxs, List.append_assoc]

theorem register_pet_snd (sha : String → String) (s : BState) (pd : PetData)
    (owner : String) (now : Nat) :
    (register_pet sha s pd owner now).2 =
      { unconfirmed_transactions := s.unconfirmed_transactions ++
          [.petRegistration (generate_pet_id sha (pd.microchip_id.getD "NO_CHIP") owner now)
            pd.name pd.species pd.microchip_id (hashed_key sha (some owner)) now]
        chain := s.chain
        pets := setPet s.pets (generate_pet_id sha (pd.microchip_id.getD "NO_CHIP") owner now)
          (create_pet_profile sha s.pets
            (generate_pet_id sha (pd.microchip_id.getD "NO_CHIP") owner now)
            { pd with owner_public_key := some owner } now).1 } := by
  simp only [register_pet, create_pet_profile]

@[simp]
theorem viewEvents_nil (pid : String) : viewEvents pid [] = [] := rfl

@[simp]
theorem viewEvents_cons_reg (pid : String) (a : String) (b c d : Option String)
    (e : String) (t : Nat) (rest : List Tx) :
    viewEvents pid (.petRegistration a b c d e t :: rest) = viewEvents pid rest := rfl

@[simp]
theorem viewEvents_cons_vet (pid : String) (a b : String) (c d : Option String)
    (e : String) (t : Nat) (rest : List Tx) :
    viewEvents pid (.vetRecord a b c d e t :: rest) = viewEvents pid rest := rfl

@[simp]
theorem viewEvents_cons_lost (pid : String) (a b c d : String) (t : Nat)
    (rest : List Tx) :
    viewEvents pid (.petLost a b c d t :: rest) = viewEvents pid rest := rfl

@[simp]
theorem viewEvents_cons_found (pid : String) (a b c : String) (t : Nat)
    (rest : List Tx) :
    viewEvents pid (.petFound a b c t :: rest) = viewEvents pid rest := rfl

@[simp]
theorem viewEvents_cons_transfer (pid : String) (a b : String) (amt t : Nat)
    (rest : List Tx) :
    viewEvents pid (.valueTransfer a b amt t :: rest) = viewEvents pid rest := rfl

@[simp]
theorem viewEvents_cons_view_self (pid viewer : String) (c t : Nat) (rest : List Tx) :
    viewEvents pid (.profileView pid viewer c t :: rest) = c :: viewEvents pid rest := by
  simp [viewEvents]

theorem viewEvents_cons_view_ne (pid pid2 viewer : String) (c t : Nat)
    (rest : List Tx) (h : pid2 ≠ pid) :
    viewEvents pid (.profileView pid2 viewer c t :: rest) = viewEvents pid rest := by
  simp [viewEvents, h]

theorem view_invariant (sha : String → String) (canonBlock : Block → String)
    (verifier : String → String → String → Nat → Option Bool) (s : BState)
    (hr : Reachable sha canonBlock verifier s) :
    (∀ pid p, lookupPet s.pets pid = some p →
      viewEvents pid (allTxs s) = viewSeq p.view_count) ∧
    (∀ pid, lookupPet s.pets pid = none → viewEvents pid (allTxs s) = []) := by
  induction hr with
  | init now =>
      constructor
      · intro pid p hp
        simp [initState, create_block, lookupPet] at hp
      · intro pid hp
        simp [initState, create_block, allTxs]
  | step hr' st ih =>
      obtain ⟨ih1, ih2⟩ := ih
      rename_i s0 s1
      cases st with
      | register pd owner now hfresh =>
          rw [register_pet_snd]
          constructor
          · intro pid p hp
            dsimp only at hp
            rw [allTxs_set_pool_pets, viewEvents_append]
            by_cases hg : pid = generate_pet_id sha (pd.microchip_id.getD "NO_CHIP") owner now
            · subst hg
              rw [lookupPet_setPet_self] at hp
              injection hp with hpe
              subst hpe
              rw [ih2 _ hfresh]
              simp
              rfl
            · rw [lookupPet_setPet_ne _ _ _ _ hg] at hp
              rw [ih1 _ _ hp]
              simp
          · intro pid hp
            dsimp only at hp
            rw [allTxs_set_pool_pets, viewEvents_append]
            by_cases hg : pid = generate_pet_id sha (pd.microchip_id.getD "NO_CHIP") owner now
            · subst hg
              rw [lookupPet_setPet_self] at hp
              cases hp
            · rw [lookupPet_setPet_ne _ _ _ _ hg] at hp
              rw [ih2 _ hp]
              simp
      | vet pid0 record key now =>
          cases hl : lookupPet s0.pets pid0 with
          | none =>
              rw [add_vet_record_to_pet_unknown sha s0 pid0 record key now hl]
              exact ⟨ih1, ih2⟩
          | some q =>
              by_cases hk : q.owner_public_key = some key
              · rw [add_vet_record_to_pet_success sha s0 pid0 record key now q hl hk]
                constructor
                · intro pid p hp
                  dsimp only at hp
                  rw [allTxs_set_pool_pets, viewEvents_append]
                  by_cases he : pid = pid0
                  · subst he
                    rw [lookupPet_updatePet_self, hl] at hp
                    injection hp with hpe
                    subst hpe
                    rw [ih1 _ _ hl]
                    simp
                  · rw [lookupPet_updatePet_ne _ _ _ _ he] at hp
                    rw [ih1 _ _ hp]
                    simp
                · intro pid hp
                  dsimp only at hp
                  rw [allTxs_set_pool_pets, viewEvents_append]
                  by_cases he : pid = pid0
                  · subst he
                    rw [lookupPet_updatePet_self, hl] at hp
                    simp at hp
                  · rw [lookupPet_updatePet_ne _ _ _ _ he] at hp
                    rw [ih2 _ hp]
                    simp
              · rw [add_vet_record_to_pet_wrongkey sha s0 pid0 record key now q hl hk]
                exact ⟨ih1, ih2⟩
      | view pid0 viewer now =>
          cases hl : lookupPet s0.pets pid0 with
          | none =>
              rw [view_pet_profile_unknown sha s0 pid0 viewer now hl]
              exact ⟨ih1, ih2⟩
          | some q =>
              rw [view_pet_profile_known sha s0 pid0 viewer now q hl]
              constructor
              · intro pid p hp
                dsimp only at hp
                rw [allTxs_set_pool_pets, viewEvents_append]
                by_cases he : pid = pid0
                · subst he
                  rw [lookupPet_updatePet_self, hl] at hp
                  injection hp with hpe
                  subst hpe
                  rw [ih1 _ _ hl]
                  simp
                  rfl
                · rw [lookupPet_updatePet_ne _ _ _ _ he] at hp
                  rw [ih1 _ _ hp, viewEvents_cons_view_ne _ _ _ _ _ _ (Ne.symm he)]
                  simp
              · intro pid hp
                dsimp only at hp
                rw [allTxs_set_pool_pets, viewEvents_append]
                by_cases he : pid = pid0
                · subst he
                  rw [lookupPet_updatePet_self, hl] at hp
                  simp at hp
                · rw [lookupPet_updatePet_ne _ _ _ _ he] at hp
                  rw [ih2 _ hp, viewEvents_cons_view_ne _ _ _ _ _ _ (Ne.symm he)]
                  simp
      | lost pid0 key location description now =>
          cases hl : lookupPet s0.pets pid0 with
          | none =>
              rw [report_pet_lost_unknown sha s0 pid0 key location description now hl]
              exact ⟨ih1, ih2⟩
          | some q =>
              by_cases hk : q.owner_public_key = some key
              · rw [report_pet_lost_success sha s0 pid0 key location description now q hl hk]
                constructor
                · intro pid p hp
                  dsimp only at hp
                  rw [allTxs_set_pool_pets, viewEvents_append]
                  by_cases he : pid = pid0
                  · subst he
                    rw [lookupPet_updatePet_self, hl] at hp
                    injection hp with hpe
                    subst hpe
                    rw [ih1 _ _ hl]
                    simp
                  · rw [lookupPet_updatePet_ne _ _ _ _ he] at hp
                    rw [ih1 _ _ hp]
                    simp
                · intro pid hp
                  dsimp only at hp
                  rw [allTxs_set_pool_pets, viewEvents_append]
                  by_cases he : pid = pid0
                  · subst he
                    rw [lookupPet_updatePet_self, hl] at hp
                    simp at hp
                  · rw [lookupPet_updatePet_ne _ _ _ _ he] at hp
                    rw [ih2 _ hp]
                    simp
              · rw [report_pet_lost_wrongkey sha s0 pid0 key location description now q hl hk]
                exact ⟨ih1, ih2⟩
      | found pid0 finder contact now =>
          cases hl : lookupPet s0.pets pid0 with
          | none =>
              rw [report_pet_found_unknown sha s0 pid0 finder contact now hl]
              exact ⟨ih1, ih2⟩
          | some q =>
              by_cases hs : q.status = "lost"
              · rw [report_pet_found_success sha s0 pid0 finder contact now q hl hs]
                constructor
                · intro pid p hp
                  dsimp only at hp
                  rw [allTxs_set_pool_pets, viewEvents_append]
                  by_cases he : pid = pid0
                  · subst he
                    rw [lookupPet_updatePet_self, hl] at hp
                    injection hp with hpe
                    subst hpe
                    rw [ih1 _ _ hl]
                    simp
                  · rw [lookupPet_updatePet_ne _ _ _ _ he] at hp
                    rw [ih1 _ _ hp]
                    simp
                · intro pid hp
                  dsimp only at hp
                  rw [allTxs_set_pool_pets, viewEvents_append]
                  by_cases he : pid = pid0
                  · subst he
                    rw [lookupPet_updatePet_self, hl] at hp
                    simp at hp
                  · rw [lookupPet_updatePet_ne _ _ _ _ he] at hp
                    rw [ih2 _ hp]
                    simp
              · rw [report_pet_found_notlost sha s0 pid0 finder contact now q hl hs]
                exact ⟨ih1, ih2⟩
      | submit sender recipient signature amount now =>
          by_cases hm : sender = MINING_SENDER
          · subst hm
            rw [submit_transaction_mining]
            constructor
            · intro pid p hp
              dsimp only at hp
              rw [allTxs_set_pool_pets, viewEvents_append, ih1 _ _ hp]
              simp
            · intro pid hp
              dsimp only at hp
              rw [allTxs_set_pool_pets, viewEvents_append, ih2 _ hp]
              simp
          · cases hv : verify_transaction_signature verifier sender signature
                recipient amount with
            | false =>
                rw [submit_transaction_reject sha verifier s0 sender recipient
                  signature amount now hm hv]
                exact ⟨ih1, ih2⟩
            | true =>
                rw [submit_transaction_accept sha verifier s0 sender recipient
                  signature amount now hm hv]
                constructor
                · intro pid p hp
                  dsimp only at hp
                  rw [allTxs_set_pool_pets, viewEvents_append, ih1 _ _ hp]
                  simp
                · intro pid hp
                  dsimp only at hp
                  rw [allTxs_set_pool_pets, viewEvents_append, ih2 _ hp]
                  simp
      | mine node_id nonce now1 now2 h =>
          constructor
          · intro pid p hp
            rw [mine_block_snd] at hp
            dsimp only at hp
            rw [allTxs_mine, viewEvents_append, ih1 _ _ hp]
            simp
          · intro pid hp
            rw [mine_block_snd] at hp
            dsimp only at hp
            rw [allTxs_mine, viewEvents_append, ih2 _ hp]
            simp

/-- C6: `view_pet_profile` returns `False` exactly when the pet id is
unknown (no check on the viewer); on success it bumps the pet's
`view_count` by one and emits a `PROFILE_VIEW` transaction carrying the
post-increment count; therefore in every reachable state the sequence of
`PROFILE_VIEW` counts emitted for a pet is `1, 2, ..., view_count` — the
k-th emitted event carries `k` and the live `view_count` equals the number
of `PROFILE_VIEW` events emitted for the pet, so replaying the events alone
reconstructs the counter. -/
theorem claim_C6 (sha : String → String) :
    (∀ (s : BState) (pid viewer : String) (now : Nat),
      (view_pet_profile sha s pid viewer now).1 = false ↔
        lookupPet s.pets pid = none) ∧
    (∀ (s : BState) (pid viewer : String) (now : Nat),
      lookupPet s.pets pid = none →
      view_pet_profile sha s pid viewer now = (false, s)) ∧
    (∀ (s : BState) (pid viewer : String) (now : Nat) (p : PetProfile),
      lookupPet s.pets pid = some p →
      view_pet_profile sha s pid viewer now =
        (true,
          { s with
              pets := updatePet s.pets pid (fun q =>
                { q with view_count := q.view_count + 1 })
              unconfirmed_transactions := s.unconfirmed_transactions ++
                [.profileView pid (hashed_key sha (some viewer))
                  (p.view_count + 1) now] })) ∧
    (∀ (canonBlock : Block → String)
        (verifier : String → String → String → Nat → Option Bool) (s : BState),
      Reachable sha canonBlock verifier s →
      ∀ pid p, lookupPet s.pets pid = some p →
        viewEvents pid (allTxs s) = viewSeq p.view_count ∧
        p.view_count = (viewEvents pid (allTxs s)).length ∧
        (∀ k, ∀ hk : k < (viewEvents pid (allTxs s)).length,
          (viewEvents pid (allTxs s))[k] = k + 1)) := by
  refine ⟨?_, ?_, ?_, ?_⟩
  · intro s pid viewer now
    constructor
    · intro hf
      cases hl : lookupPet s.pets pid with
      | none => rfl
      | some p =>
          rw [view_pet_profile_known sha s pid viewer now p hl] at hf
          simp at hf
    · intro hl
      rw [view_pet_profile_unknown sha s pid viewer now hl]
  · intro s pid viewer now hl
    exact view_pet_profile_unknown sha s pid viewer now hl
  · intro s pid viewer now p hl
    exact view_pet_profile_known sha s pid viewer now p hl
  · intro canonBlock verifier s hr pid p hp
    have h1 := (view_invariant sha canonBlock verifier s hr).1 pid p hp
    refine ⟨h1, ?_, ?_⟩
    · rw [h1, viewSeq_length]
    · intro k hk
      have hk2 : k < (viewSeq p.view_count).length := by rw [← h1]; exact hk
      rw [List.getElem_of_eq h1 hk]
      exact viewSeq_getElem p.view_count k hk2

set_option maxRecDepth 8000 in
/-- Closed instance of C6: viewing the concrete registered pet once
succeeds, and the emitted `PROFILE_VIEW` counts for it are exactly
`viewSeq 1 = [1]`. -/
theorem claim_C6_witness :
    ((view_pet_profile shaId sW1 pidW "V1" 2).1 = true) ∧
    (viewEvents pidW (allTxs sWv) = viewSeq 1) ∧
    ((viewEvents pidW (allTxs sWv)).length = 1) := by
  have hreach : Reachable shaId canonBlock0 verifierNone sWv :=
    .step (.step (.init 0) (.register sW0 petDataW "K1" 1 (by decide)))
      (.view sW1 pidW "V1" 2)
  have hw := (claim_C6 shaId).2.2.2 canonBlock0 verifierNone sWv hreach pidW
    { profileW with view_count := 1 } (by decide)
  refine ⟨?_, hw.1, hw.2.1.symm⟩
  rw [(claim_C6 shaId).2.2.1 sW1 pidW "V1" 2 profileW (by decide)]
